import Mathlib

/-!
Formal model of the swap-routing and trade-derivation core of the
polywrap/uniswap-interface repository.

The TypeScript sources are shallowly embedded:
* exact rational SDK arithmetic (`Fraction`, `Percent`, `Decimal`) is `ℚ`;
* raw integer amounts (`JSBI`, quotients) are `ℕ`;
* `undefined`/`null` is `Option`;
* a thrown `Error` is the `Except.error` branch of an `Except`;
* external collaborators (the Polywrap wrapper invocations, contracts,
  providers) are passed in as explicit parameters.
-/

/-! ## Data model for `src/utils/trades.ts`

`Uni_Currency` (see `src/polywrap/constants`) carries decimals, name and
symbol; a token wraps a currency together with its chain id and address.
Currency equality is structural. -/

structure W3Currency where
  decimals : Nat
  name : String
  symbol : String
deriving DecidableEq, Repr

structure W3Token where
  chainId : Nat
  address : String
  currency : W3Currency
deriving DecidableEq, Repr

structure W3TokenAmount where
  token : W3Token
  amount : Nat
deriving DecidableEq, Repr

inductive W3TradeType where
  | EXACT_INPUT
  | EXACT_OUTPUT
deriving DecidableEq, Repr

structure W3Pair where
  tokenAmount0 : W3TokenAmount
  tokenAmount1 : W3TokenAmount
deriving DecidableEq, Repr

structure W3Route where
  pairs : List W3Pair
  input : W3Currency
  output : W3Currency
deriving DecidableEq, Repr

structure W3Trade where
  route : W3Route
  tradeType : W3TradeType
  inputAmount : W3TokenAmount
  outputAmount : W3TokenAmount
deriving DecidableEq, Repr

/-- Modelled from the spec: `currencyEquals` (`src/polywrap/utils`) is not under
`src/`; the spec states currency equality is structural. -/
def w3currencyEquals (a b : W3Currency) : Bool := a == b

/-- The `ETHER` currency constant (`src/polywrap/constants`). -/
def ETHER : W3Currency := { decimals := 18, name := "Ether", symbol := "ETH" }

/-- Modelled from the spec: `isEther` (`src/polywrap/utils`) is not under
`src/`; it recognises the native-asset currency. -/
def isEther (t : W3Token) : Bool := t.currency == ETHER

/-- `W3_ZERO_PERCENT` from `src/constants` (not under `src/`): `new Decimal(0)`. -/
def W3_ZERO_PERCENT : ℚ := 0

/-- `W3_ONE_HUNDRED_PERCENT` from `src/constants` (not under `src/`): `new Decimal(1)`. -/
def W3_ONE_HUNDRED_PERCENT : ℚ := 1

inductive TradeFault where
  | notComparable
deriving DecidableEq, Repr

/-- `w3IsTradeBetter` (`src/utils/trades.ts` lines 8-34).  The execution price
of a trade is produced by the external wrapper call `w3TradeExecutionPrice`,
passed here as the function `execPrice`.  The returned boolean reports whether
`tradeB` is the better trade (`true` when `tradeB` wins).  Note that the third
guard disjunct compares `tradeB.outputAmount`'s currency with itself, exactly
as the source does. -/
def w3IsTradeBetter (execPrice : W3Trade → ℚ) (tradeA tradeB : Option W3Trade)
    (minimumDelta : ℚ := W3_ZERO_PERCENT) : Except TradeFault (Option Bool) :=
  match tradeA, tradeB with
  | some _, none => Except.ok (some false)
  | none, some _ => Except.ok (some true)
  | none, none => Except.ok none
  | some a, some b =>
    if a.tradeType ≠ b.tradeType
        ∨ w3currencyEquals a.inputAmount.token.currency b.inputAmount.token.currency = false
        ∨ w3currencyEquals b.outputAmount.token.currency b.outputAmount.token.currency = false then
      Except.error TradeFault.notComparable
    else
      let executionPriceA := execPrice a
      let executionPriceB := execPrice b
      if minimumDelta = W3_ZERO_PERCENT then
        Except.ok (some (decide (executionPriceA < executionPriceB)))
      else
        Except.ok (some (decide (executionPriceA * (minimumDelta + W3_ONE_HUNDRED_PERCENT) < executionPriceB)))

/-! ## Price breakdown (`src/utils/trades.ts` lines 56-96)

`Percent`/`Fraction` arithmetic is exact rational arithmetic, embedded as `ℚ`.
`Fraction.quotient` is the floor of the rational. -/

def ONE_HUNDRED_PERCENT : ℚ := 10000 / 10000

def BASE_FEE : ℚ := 30 / 10000

def INPUT_FRACTION_AFTER_FEE : ℚ := ONE_HUNDRED_PERCENT - BASE_FEE

/-- The realized liquidity-provider fee fraction computed inside
`computeTradePriceBreakdown`: the route's pairs are folded, multiplying the
running fraction by `INPUT_FRACTION_AFTER_FEE` once per pair, starting from
`ONE_HUNDRED_PERCENT`, and the product is subtracted from one hundred percent. -/
def realizedLPFeeFraction (trade : W3Trade) : ℚ :=
  ONE_HUNDRED_PERCENT -
    trade.route.pairs.foldl (fun currentFee _ => currentFee * INPUT_FRACTION_AFTER_FEE)
      ONE_HUNDRED_PERCENT

structure PriceBreakdown where
  priceImpactWithoutFee : Option ℚ
  realizedLPFee : Option W3TokenAmount
deriving DecidableEq, Repr

/-- `computeTradePriceBreakdown` (`src/utils/trades.ts` lines 65-96).  The
trade's `priceImpact` field is computed by the SDK and passed in as
`priceImpact`.  The fee amount multiplies the fee fraction into the raw input
amount and takes the quotient (floor); for a native-asset input the amount is
repackaged against the `ETHER` currency with an empty address. -/
def computeTradePriceBreakdown (priceImpact : W3Trade → ℚ)
    (trade : Option W3Trade) : PriceBreakdown :=
  match trade with
  | none => { priceImpactWithoutFee := none, realizedLPFee := none }
  | some t =>
    let realizedLPFee : ℚ := realizedLPFeeFraction t
    let priceImpactWithoutFeeFraction : ℚ := priceImpact t - realizedLPFee
    let feeAmount : Nat := (realizedLPFee * (t.inputAmount.amount : ℚ)).floor.toNat
    let realizedLPFeeAmount : W3TokenAmount :=
      if isEther t.inputAmount.token = false then
        { token := t.inputAmount.token, amount := feeAmount }
      else
        { token := { chainId := t.inputAmount.token.chainId, address := "", currency := ETHER },
          amount := feeAmount }
    { priceImpactWithoutFee := some priceImpactWithoutFeeFraction,
      realizedLPFee := some realizedLPFeeAmount }

/-! ## Warning severity (`src/utils/trades.ts` lines 153-159)

The four price-impact thresholds come from `src/constants`, which is not under
`src/`; modelled from the spec: four ascending thresholds low/medium/high/
blocking.  In the source each guard reads `!priceImpact?.lessThan(threshold)`;
when `priceImpact` is `undefined` the optional chain yields `undefined`, whose
negation is `true`, so the very first guard returns 4. -/

structure PriceImpactThresholds where
  W3ALLOWED_PRICE_IMPACT_LOW : ℚ
  W3ALLOWED_PRICE_IMPACT_MEDIUM : ℚ
  W3ALLOWED_PRICE_IMPACT_HIGH : ℚ
  W3BLOCKED_PRICE_IMPACT_NON_EXPERT : ℚ
deriving DecidableEq, Repr

def warningSeverity (th : PriceImpactThresholds) (priceImpact : Option ℚ) : Nat :=
  match priceImpact with
  | none => 4
  | some p =>
    if ¬ p < th.W3BLOCKED_PRICE_IMPACT_NON_EXPERT then 4
    else if ¬ p < th.W3ALLOWED_PRICE_IMPACT_HIGH then 3
    else if ¬ p < th.W3ALLOWED_PRICE_IMPACT_MEDIUM then 2
    else if ¬ p < th.W3ALLOWED_PRICE_IMPACT_LOW then 1
    else 0

/-! ## Swap call building and gas-estimation selection (`src/unnamed/part_000`)

`useSwapCallArguments` gathers the candidate call descriptors for a trade;
`useSwapCallback`'s `onSwap` estimates gas for each candidate and selects one.
The ethers `Contract` object is modelled by its address; the encoded call
parameters produced by the external wrapper `w3SwapCallParameters` (and by the
`v1SwapArguments` utility, neither of which is under `src/`) are modelled by a
record of the exact inputs the source passes to them. -/

structure Contract where
  address : String
deriving DecidableEq, Repr

inductive Version where
  | v1
  | v2
deriving DecidableEq, Repr

/-- One candidate swap call: the target contract together with the descriptor
request the source hands to the parameter encoder.  `feeOnTransfer` is the
`feeOnTransfer` flag of the v2 `w3SwapCallParameters` options; the v1 encoder
`v1SwapArguments` takes no such flag and the source never requests a
fee-on-transfer variant for it, recorded here as `false`. -/
structure SwapCallDescriptor where
  contract : Contract
  trade : W3Trade
  feeOnTransfer : Bool
  allowedSlippage : ℚ
  recipient : String
  deadline : Nat
deriving DecidableEq, Repr

/-- `W3BIPS_BASE` from `src/constants` (not under `src/`): 10000 bips per unit. -/
def W3BIPS_BASE : ℚ := 10000

/-- `useSwapCallArguments` (`src/unnamed/part_000` lines 56-119).  Hook-derived
context is passed explicitly: `account`, `chainId`, `deadline` and the toggled
version come from the surrounding hooks, `library` records whether a wallet
provider is connected, `recipientAddressOrName` is the raw recipient argument
(`none` embeds `null`), `recipientAddress` is the ENS resolution result, and
`routerContract` / `v1Exchange` stand for `getRouterContract` and the v1
exchange contract. -/
def useSwapCallArguments
    (trade : Option W3Trade) (allowedSlippage : Nat)
    (recipientAddressOrName : Option String)
    (account : Option String) (chainId : Option Nat) (library : Bool)
    (toggledVersion : Option Version)
    (recipientAddress : Option String)
    (deadline : Option Nat)
    (routerContract : Contract) (v1Exchange : Option Contract) : List SwapCallDescriptor :=
  let recipient : Option String :=
    match recipientAddressOrName with
    | none => account
    | some _ => recipientAddress
  match trade, recipient, account, toggledVersion, chainId, deadline with
  | some t, some r, some _, some tradeVersion, some _, some dl =>
    if library = false then []
    else
      let contract : Option Contract :=
        match tradeVersion with
        | Version.v2 => some routerContract
        | Version.v1 => v1Exchange
      match contract with
      | none => []
      | some c =>
        match tradeVersion with
        | Version.v2 =>
          [{ contract := c, trade := t, feeOnTransfer := false,
             allowedSlippage := (allowedSlippage : ℚ) / W3BIPS_BASE,
             recipient := r, deadline := dl }] ++
          (if t.tradeType = W3TradeType.EXACT_INPUT then
            [{ contract := c, trade := t, feeOnTransfer := true,
               allowedSlippage := (allowedSlippage : ℚ) / W3BIPS_BASE,
               recipient := r, deadline := dl }]
          else [])
        | Version.v1 =>
          [{ contract := c, trade := t, feeOnTransfer := false,
             allowedSlippage := (allowedSlippage : ℚ) / W3BIPS_BASE,
             recipient := r, deadline := dl }]
  | _, _, _, _, _, _ => []

/-! ### Gas estimation selection (`src/unnamed/part_000` lines 153-210) -/

/-- The outcome of estimating one candidate: `SuccessfulCall` carries a gas
estimate, `FailedCall` carries the captured error message. -/
inductive EstimatedSwapCall where
  | successful (call : SwapCallDescriptor) (gasEstimate : Nat)
  | failed (call : SwapCallDescriptor) (error : String)
deriving DecidableEq, Repr

/-- Whether `'gasEstimate' in el` holds, i.e. the candidate is a `SuccessfulCall`. -/
def hasGasEstimate : EstimatedSwapCall → Bool
  | EstimatedSwapCall.successful _ _ => true
  | EstimatedSwapCall.failed _ _ => false

/-- The `estimatedCalls.find(...)` of lines 201-204: the first element `el` at
index `ix` such that `el` succeeded and either `ix` is the final index or the
element at `ix + 1` also succeeded. -/
def successfulEstimation (estimatedCalls : List EstimatedSwapCall) : Option EstimatedSwapCall :=
  (estimatedCalls.enum.find? (fun p =>
      hasGasEstimate p.2 &&
        (p.1 == estimatedCalls.length - 1 ||
          match estimatedCalls.get? (p.1 + 1) with
          | some nxt => hasGasEstimate nxt
          | none => false))).map Prod.snd

/-- What `onSwap` does with the estimation outcomes: either submit a selected
call with its gas estimate, or throw an error message. -/
inductive SwapAttemptOutcome where
  | submit (call : SwapCallDescriptor) (gasEstimate : Nat)
  | thrown (message : String)
deriving DecidableEq, Repr

/-- The selection logic of `onSwap` (lines 200-218): take `successfulEstimation`
(whose guard entails the found element is a `SuccessfulCall`); if none was
found, filter the failed calls and throw the last one's error, or a generic
fault when no failures were captured either. -/
def selectSwapCall (estimatedCalls : List EstimatedSwapCall) : SwapAttemptOutcome :=
  match successfulEstimation estimatedCalls with
  | some (EstimatedSwapCall.successful call gasEstimate) =>
    SwapAttemptOutcome.submit call gasEstimate
  | _ =>
    let errorCalls := estimatedCalls.filter (fun c => hasGasEstimate c = false)
    match errorCalls.getLast? with
    | some (EstimatedSwapCall.failed _ err) => SwapAttemptOutcome.thrown err
    | _ =>
      SwapAttemptOutcome.thrown
        "Unexpected error. Please contact support: none of the calls threw an error"

/-! ## Permit signer state (`src/hooks/useERC20Permit.ts`)

`useERC20Permit` derives the permit state from hook context.  The context is
passed explicitly; effectful pieces (`gatherPermitSignature`, the provider) are
not invoked by the state derivation and are modelled as presence flags. -/

inductive PermitType where
  | AMOUNT
  | ALLOWED
deriving DecidableEq, Repr

structure PermitInfo where
  type : PermitType
  name : String
  version : Option String
deriving DecidableEq, Repr

inductive UseERC20PermitState where
  | NOT_APPLICABLE
  | LOADING
  | NOT_SIGNED
  | SIGNED
deriving DecidableEq, Repr

/-- The amount-or-allowed tail of a `SignatureData`: a `StandardSignatureData`
carries the signed `amount`, an `AllowedSignatureData` carries `allowed: true`. -/
inductive SignatureAmount where
  | amount (value : Nat)
  | allowed
deriving DecidableEq, Repr

structure SignatureData where
  v : Nat
  r : String
  s : String
  deadline : Nat
  nonce : Nat
  owner : String
  spender : String
  chainId : Nat
  tokenAddress : String
  permitType : PermitType
  amountOrAllowed : SignatureAmount
deriving DecidableEq, Repr

/-- The context the hook reads (lines 133-142): wallet and chain state, the
call arguments, the resolved nonce state and the stored signature. -/
structure PermitHookContext where
  isArgentWallet : Bool
  currencyAmountQuotient : Option Nat
  eip2612Contract : Bool
  account : Option String
  chainId : Option Nat
  transactionDeadline : Option Nat
  provider : Bool
  nonceValid : Bool
  nonceLoading : Bool
  nonceResult : Option Nat
  tokenAddress : Option String
  spender : Option String
  permitInfo : Option PermitInfo
  signatureData : Option SignatureData
deriving DecidableEq, Repr

structure PermitHookResult where
  state : UseERC20PermitState
  signatureData : Option SignatureData
deriving DecidableEq, Repr

/-- The validity check of lines 174-181: the stored signature exists and its
owner, deadline, token address, nonce and spender match the current context,
and either it is an allowed-style permit or its signed amount equals the
currently required approval amount. -/
def isSignatureDataValid (sig : Option SignatureData) (account : String)
    (transactionDeadline : Nat) (tokenAddress : String) (nonceNumber : Nat)
    (spender : String) (currencyAmountQuotient : Nat) : Bool :=
  match sig with
  | none => false
  | some signatureData =>
    signatureData.owner == account &&
    decide (signatureData.deadline ≥ transactionDeadline) &&
    signatureData.tokenAddress == tokenAddress &&
    signatureData.nonce == nonceNumber &&
    signatureData.spender == spender &&
    (match signatureData.amountOrAllowed with
     | SignatureAmount.allowed => true
     | SignatureAmount.amount value => value == currencyAmountQuotient)

/-- `useERC20Permit` (`src/hooks/useERC20Permit.ts` lines 144-247), restricted
to the returned state and exposed signature (the `gatherPermitSignature`
closure is effectful and not part of the state derivation). -/
def useERC20Permit (ctx : PermitHookContext) : PermitHookResult :=
  match ctx.currencyAmountQuotient, ctx.account, ctx.chainId, ctx.transactionDeadline,
      ctx.tokenAddress, ctx.spender, ctx.permitInfo with
  | some amountQuotient, some account, some _, some transactionDeadline,
      some tokenAddress, some spender, some _ =>
    if ctx.isArgentWallet ∨ ctx.eip2612Contract = false ∨ ctx.provider = false
        ∨ ctx.nonceValid = false then
      { state := UseERC20PermitState.NOT_APPLICABLE, signatureData := none }
    else
      match ctx.nonceResult with
      | none => { state := UseERC20PermitState.LOADING, signatureData := none }
      | some nonceNumber =>
        if ctx.nonceLoading then
          { state := UseERC20PermitState.LOADING, signatureData := none }
        else if isSignatureDataValid ctx.signatureData account transactionDeadline
            tokenAddress nonceNumber spender amountQuotient then
          { state := UseERC20PermitState.SIGNED, signatureData := ctx.signatureData }
        else
          { state := UseERC20PermitState.NOT_SIGNED, signatureData := none }
  | _, _, _, _, _, _, _ =>
    { state := UseERC20PermitState.NOT_APPLICABLE, signatureData := none }

/-! ## Client-side v3 trade derivation (`src/hooks/useClientSideV3Trade.ts`)

The second `useEffect` (lines 93-206) derives the trade state from the quoted
candidate routes.  sdk-core currencies are structural values with `wrapped`
identity on tokens; the wrap type `Uni_Token` round-trips through
`reverseMapToken` to the same token, so both are modelled by one token type. -/

structure TokenV3 where
  chainId : Nat
  address : String
  decimals : Nat
deriving DecidableEq, Repr

structure CurrencyAmountV3 where
  currency : TokenV3
  quotient : Nat
deriving DecidableEq, Repr

inductive TradeTypeV3 where
  | EXACT_INPUT
  | EXACT_OUTPUT
deriving DecidableEq, Repr

/-- A candidate route from `useAllV3Routes`; the derivation only consults its
input and output tokens (defensively optional, as the source checks
`!bestRoute.input` / `!bestRoute.output`) besides passing it through whole. -/
structure RouteV3 where
  poolAddresses : List String
  input : Option TokenV3
  output : Option TokenV3
deriving DecidableEq, Repr

/-- One element of `quotesResults` from `useSingleContractWithCallData`:
validity and loading flags plus the decoded quoter result, whose `amountOut` /
`amountIn` raw strings are modelled as naturals. -/
structure QuoteAmounts where
  amountOut : Option Nat
  amountIn : Option Nat
deriving DecidableEq, Repr

structure QuoteCallState where
  valid : Bool
  loading : Bool
  result : Option QuoteAmounts
deriving DecidableEq, Repr

inductive TradeState where
  | LOADING
  | INVALID
  | NO_ROUTE_FOUND
  | VALID
deriving DecidableEq, Repr

structure TradeV3 where
  route : RouteV3
  inputAmount : CurrencyAmountV3
  outputAmount : CurrencyAmountV3
  tradeType : TradeTypeV3
deriving DecidableEq, Repr

/-- Modelled from the spec: the wrapper invocation `Uni_Module.createUncheckedTrade`
is not under `src/`; it builds the canonical trade object from the selected
route, amounts and trade type. -/
def createUncheckedTrade (route : RouteV3) (inputAmount outputAmount : CurrencyAmountV3)
    (tradeType : TradeTypeV3) : TradeV3 :=
  { route := route, inputAmount := inputAmount, outputAmount := outputAmount,
    tradeType := tradeType }

/-- The accumulator of the `quotesResults.reduce` (lines 120-164). -/
structure CurrentBest where
  bestRoute : Option RouteV3
  amountIn : Option CurrencyAmountV3
  amountOut : Option CurrencyAmountV3
deriving DecidableEq, Repr

/-- One step of the reduce (lines 129-157): skip a missing result or missing
quoted amount; under `EXACT_INPUT` overwrite the current best when it is unset
or this route's `amountOut` is strictly greater; under `EXACT_OUTPUT` overwrite
when the current best is unset or this route's `amountIn` is strictly smaller. -/
def bestQuoteStep (tradeType : TradeTypeV3) (amountSpecified : CurrencyAmountV3)
    (currencyIn currencyOut : TokenV3) (routes : List RouteV3)
    (currentBest : CurrentBest) (result : Option QuoteAmounts) (i : Nat) : CurrentBest :=
  match result with
  | none => currentBest
  | some res =>
    match tradeType with
    | TradeTypeV3.EXACT_INPUT =>
      match res.amountOut with
      | none => currentBest
      | some amountOutRaw =>
        let amountOut : CurrencyAmountV3 := { currency := currencyOut, quotient := amountOutRaw }
        match currentBest.amountOut with
        | none =>
          { bestRoute := routes.get? i, amountIn := some amountSpecified,
            amountOut := some amountOut }
        | some best =>
          if best.quotient < amountOut.quotient then
            { bestRoute := routes.get? i, amountIn := some amountSpecified,
              amountOut := some amountOut }
          else currentBest
    | TradeTypeV3.EXACT_OUTPUT =>
      match res.amountIn with
      | none => currentBest
      | some amountInRaw =>
        let amountIn : CurrencyAmountV3 := { currency := currencyIn, quotient := amountInRaw }
        match currentBest.amountIn with
        | none =>
          { bestRoute := routes.get? i, amountIn := some amountIn,
            amountOut := some amountSpecified }
        | some best =>
          if amountIn.quotient < best.quotient then
            { bestRoute := routes.get? i, amountIn := some amountIn,
              amountOut := some amountSpecified }
          else currentBest

/-- The indexed fold over the quoter results, mirroring `reduce` with its index
argument. -/
def bestQuoteGo (tradeType : TradeTypeV3) (amountSpecified : CurrencyAmountV3)
    (currencyIn currencyOut : TokenV3) (routes : List RouteV3) :
    Nat → List (Option QuoteAmounts) → CurrentBest → CurrentBest
  | _, [], currentBest => currentBest
  | i, r :: rest, currentBest =>
    bestQuoteGo tradeType amountSpecified currencyIn currencyOut routes (i + 1) rest
      (bestQuoteStep tradeType amountSpecified currencyIn currencyOut routes currentBest r i)

/-- The full `quotesResults.reduce(..., { bestRoute: null, amountIn: null,
amountOut: null })` of lines 120-164. -/
def bestQuoteOfResults (tradeType : TradeTypeV3) (amountSpecified : CurrencyAmountV3)
    (currencyIn currencyOut : TokenV3) (routes : List RouteV3)
    (results : List (Option QuoteAmounts)) : CurrentBest :=
  bestQuoteGo tradeType amountSpecified currencyIn currencyOut routes 0 results
    { bestRoute := none, amountIn := none, amountOut := none }

/-- What one run of the effect does to the hook's `result` state: either set a
new `(state, trade)` pair, or return early without touching it (the stale
route-endpoint mismatch branches and the failed `createUncheckedTrade`
invocation). -/
inductive TradeUpdate where
  | set (state : TradeState) (trade : Option TradeV3)
  | keep
deriving DecidableEq, Repr

/-- The state derivation of `useClientSideV3Trade`'s second effect (lines
93-206).  `createTradeError` records whether the external
`createUncheckedTrade` invocation reported an error. -/
def useClientSideV3Trade (tradeType : TradeTypeV3)
    (amountSpecified : Option CurrencyAmountV3) (otherCurrency : Option TokenV3)
    (routes : List RouteV3) (routesLoading : Bool)
    (quotesResults : List QuoteCallState) (createTradeError : Bool) : TradeUpdate :=
  let currencyIn : Option TokenV3 :=
    match tradeType with
    | TradeTypeV3.EXACT_INPUT => amountSpecified.map (fun a => a.currency)
    | TradeTypeV3.EXACT_OUTPUT => otherCurrency
  let currencyOut : Option TokenV3 :=
    match tradeType with
    | TradeTypeV3.EXACT_INPUT => otherCurrency
    | TradeTypeV3.EXACT_OUTPUT => amountSpecified.map (fun a => a.currency)
  match amountSpecified with
  | none => TradeUpdate.set TradeState.INVALID none
  | some amt =>
    match currencyIn with
    | none => TradeUpdate.set TradeState.INVALID none
    | some cin =>
      match currencyOut with
      | none => TradeUpdate.set TradeState.INVALID none
      | some cout =>
        if quotesResults.any (fun q => q.valid = false) ||
            (match tradeType with
             | TradeTypeV3.EXACT_INPUT => amt.currency == cout
             | TradeTypeV3.EXACT_OUTPUT => amt.currency == cin) then
          TradeUpdate.set TradeState.INVALID none
        else if routesLoading || quotesResults.any (fun q => q.loading) then
          TradeUpdate.set TradeState.LOADING none
        else
          let best := bestQuoteOfResults tradeType amt cin cout routes
            (quotesResults.map (fun q => q.result))
          match best.bestRoute with
          | none => TradeUpdate.set TradeState.NO_ROUTE_FOUND none
          | some bestRoute =>
            match best.amountIn with
            | none => TradeUpdate.set TradeState.NO_ROUTE_FOUND none
            | some amountIn =>
              match best.amountOut with
              | none => TradeUpdate.set TradeState.NO_ROUTE_FOUND none
              | some amountOut =>
                if (match bestRoute.input with
                    | none => true
                    | some t => t != amountIn.currency) then TradeUpdate.keep
                else if (match bestRoute.output with
                    | none => true
                    | some t => t != amountOut.currency) then TradeUpdate.keep
                else if createTradeError then TradeUpdate.keep
                else
                  TradeUpdate.set TradeState.VALID
                    (some (createUncheckedTrade bestRoute amountIn amountOut tradeType))

/-! ## Specification-side measures for the best-route selection

These definitions are not part of the embedded source; they state what "the
route with the best quote" means so the fold of `useClientSideV3Trade` can be
compared against it. -/

/-- The indexed valid output quotes: pairs `(i, amountOut)` for the results
(numbered from `k`) that decoded an `amountOut`. -/
def validOutQuotes : Nat → List (Option QuoteAmounts) → List (Nat × Nat)
  | _, [] => []
  | k, r :: rest =>
    match r with
    | none => validOutQuotes (k + 1) rest
    | some res =>
      match res.amountOut with
      | none => validOutQuotes (k + 1) rest
      | some o => (k, o) :: validOutQuotes (k + 1) rest

/-- The indexed valid input quotes: pairs `(i, amountIn)` for the results
(numbered from `k`) that decoded an `amountIn`. -/
def validInQuotes : Nat → List (Option QuoteAmounts) → List (Nat × Nat)
  | _, [] => []
  | k, r :: rest =>
    match r with
    | none => validInQuotes (k + 1) rest
    | some res =>
      match res.amountIn with
      | none => validInQuotes (k + 1) rest
      | some o => (k, o) :: validInQuotes (k + 1) rest

/-- Running selection of the first-seen maximum: keep the accumulator unless a
later candidate's value is strictly greater. -/
def selMaxFirst : Nat × Nat → List (Nat × Nat) → Nat × Nat
  | acc, [] => acc
  | acc, c :: rest => if acc.2 < c.2 then selMaxFirst c rest else selMaxFirst acc rest

/-- Running selection of the first-seen minimum: keep the accumulator unless a
later candidate's value is strictly smaller. -/
def selMinFirst : Nat × Nat → List (Nat × Nat) → Nat × Nat
  | acc, [] => acc
  | acc, c :: rest => if c.2 < acc.2 then selMinFirst c rest else selMinFirst acc rest

/-- The `EXACT_INPUT` reduce restricted to the valid candidates. -/
def runBestOut (amountSpecified : CurrencyAmountV3) (currencyOut : TokenV3)
    (routes : List RouteV3) : List (Nat × Nat) → CurrentBest → CurrentBest
  | [], acc => acc
  | (j, o) :: rest, acc =>
    runBestOut amountSpecified currencyOut routes rest
      (match acc.amountOut with
       | none =>
         { bestRoute := routes.get? j, amountIn := some amountSpecified,
           amountOut := some { currency := currencyOut, quotient := o } }
       | some best =>
         if best.quotient < o then
           { bestRoute := routes.get? j, amountIn := some amountSpecified,
             amountOut := some { currency := currencyOut, quotient := o } }
         else acc)

/-- The `EXACT_OUTPUT` reduce restricted to the valid candidates. -/
def runBestIn (amountSpecified : CurrencyAmountV3) (currencyIn : TokenV3)
    (routes : List RouteV3) : List (Nat × Nat) → CurrentBest → CurrentBest
  | [], acc => acc
  | (j, o) :: rest, acc =>
    runBestIn amountSpecified currencyIn routes rest
      (match acc.amountIn with
       | none =>
         { bestRoute := routes.get? j,
           amountIn := some { currency := currencyIn, quotient := o },
           amountOut := some amountSpecified }
       | some best =>
         if o < best.quotient then
           { bestRoute := routes.get? j,
             amountIn := some { currency := currencyIn, quotient := o },
             amountOut := some amountSpecified }
         else acc)

/-! ## Sample values used by concrete evaluations -/

def sampleCurrencyA : W3Currency := { decimals := 18, name := "TokenA", symbol := "TKA" }

def sampleCurrencyB : W3Currency := { decimals := 18, name := "TokenB", symbol := "TKB" }

def sampleCurrencyC : W3Currency := { decimals := 18, name := "TokenC", symbol := "TKC" }

def sampleAmount (c : W3Currency) (addr : String) (n : Nat) : W3TokenAmount :=
  { token := { chainId := 1, address := addr, currency := c }, amount := n }

def samplePair : W3Pair :=
  { tokenAmount0 := sampleAmount sampleCurrencyA "0xa" 1000000,
    tokenAmount1 := sampleAmount sampleCurrencyB "0xb" 1000000 }

/-- An exact-input trade from TKA to TKB over a two-pair route. -/
def tradeAB1 : W3Trade :=
  { route := { pairs := [samplePair, samplePair], input := sampleCurrencyA, output := sampleCurrencyB },
    tradeType := W3TradeType.EXACT_INPUT,
    inputAmount := sampleAmount sampleCurrencyA "0xa" 1000,
    outputAmount := sampleAmount sampleCurrencyB "0xb" 900 }

/-- A second exact-input trade from TKA to TKB with a better output. -/
def tradeAB2 : W3Trade :=
  { route := { pairs := [samplePair, samplePair], input := sampleCurrencyA, output := sampleCurrencyB },
    tradeType := W3TradeType.EXACT_INPUT,
    inputAmount := sampleAmount sampleCurrencyA "0xa" 1000,
    outputAmount := sampleAmount sampleCurrencyB "0xb" 950 }

/-- An exact-input trade from TKA to TKC: same trade type and input currency as
`tradeAB1` but a different output currency. -/
def tradeAC : W3Trade :=
  { route := { pairs := [samplePair], input := sampleCurrencyA, output := sampleCurrencyC },
    tradeType := W3TradeType.EXACT_INPUT,
    inputAmount := sampleAmount sampleCurrencyA "0xa" 1000,
    outputAmount := sampleAmount sampleCurrencyC "0xc" 500 }

/-- `tradeAB1` with the opposite trade type. -/
def tradeABexactOut : W3Trade :=
  { tradeAB1 with tradeType := W3TradeType.EXACT_OUTPUT }

/-- A concrete stand-in for the external `w3TradeExecutionPrice` wrapper call:
all sample trades fix the same input amount, so the quoted output amount
serves as the execution price. -/
def sampleExecPrice (t : W3Trade) : ℚ :=
  (t.outputAmount.amount : ℚ)

def sampleRouterContract : Contract := { address := "0xrouter" }

def sampleCallA : SwapCallDescriptor :=
  { contract := sampleRouterContract, trade := tradeAB1, feeOnTransfer := false,
    allowedSlippage := 50 / 10000, recipient := "0xrecipient", deadline := 1700000000 }

def sampleCallB : SwapCallDescriptor :=
  { sampleCallA with feeOnTransfer := true }

def sampleThresholds : PriceImpactThresholds :=
  { W3ALLOWED_PRICE_IMPACT_LOW := 1 / 100,
    W3ALLOWED_PRICE_IMPACT_MEDIUM := 3 / 100,
    W3ALLOWED_PRICE_IMPACT_HIGH := 5 / 100,
    W3BLOCKED_PRICE_IMPACT_NON_EXPERT := 15 / 100 }

def sampleV1Exchange : Contract := { address := "0xv1exchange" }

def sampleTokenV3A : TokenV3 := { chainId := 1, address := "0xA", decimals := 18 }

def sampleTokenV3B : TokenV3 := { chainId := 1, address := "0xB", decimals := 18 }

def sampleRouteV3X : RouteV3 :=
  { poolAddresses := ["0xpool1"], input := some sampleTokenV3A, output := some sampleTokenV3B }

def sampleRouteV3Y : RouteV3 :=
  { poolAddresses := ["0xpool2"], input := some sampleTokenV3A, output := some sampleTokenV3B }

def sampleAmountV3 : CurrencyAmountV3 := { currency := sampleTokenV3A, quotient := 1000 }

def sampleQuotes : List QuoteCallState :=
  [{ valid := true, loading := false, result := some { amountOut := some 900, amountIn := none } },
   { valid := true, loading := false, result := some { amountOut := some 950, amountIn := none } }]

def sampleSignature : SignatureData :=
  { v := 27, r := "0xr", s := "0xs", deadline := 1700001200, nonce := 7,
    owner := "0xowner", spender := "0xspender", chainId := 1, tokenAddress := "0xtoken",
    permitType := PermitType.AMOUNT, amountOrAllowed := SignatureAmount.amount 1000 }

def samplePermitCtx : PermitHookContext :=
  { isArgentWallet := false, currencyAmountQuotient := some 1000, eip2612Contract := true,
    account := some "0xowner", chainId := some 1, transactionDeadline := some 1700000000,
    provider := true, nonceValid := true, nonceLoading := false, nonceResult := some 7,
    tokenAddress := some "0xtoken", spender := some "0xspender",
    permitInfo := some { type := PermitType.AMOUNT, name := "USD Coin", version := some "2" },
    signatureData := some sampleSignature }

/-! # Theorems -/

/-! ## Helper lemmas -/

theorem foldl_mul_fee (l : List W3Pair) (a : ℚ) :
    l.foldl (fun currentFee _ => currentFee * INPUT_FRACTION_AFTER_FEE) a =
      a * INPUT_FRACTION_AFTER_FEE ^ l.length := by
  induction l generalizing a with
  | nil => simp
  | cons x xs ih =>
    simp only [List.foldl_cons, List.length_cons, ih (a * INPUT_FRACTION_AFTER_FEE)]
    ring

theorem validOutQuotes_mem_iff (results : List (Option QuoteAmounts)) :
    ∀ k j o, ((j, o) ∈ validOutQuotes k results ↔
      ∃ i res, results.get? i = some (some res) ∧ res.amountOut = some o ∧ j = k + i) := by
  induction results with
  | nil =>
    intro k j o
    simp [validOutQuotes]
  | cons r rest ih =>
    intro k j o
    cases r with
    | none =>
      simp only [validOutQuotes]
      rw [ih (k + 1) j o]
      constructor
      · rintro ⟨i, res, hget, hout, hj⟩
        exact ⟨i + 1, res, by simpa using hget, hout, by omega⟩
      · rintro ⟨i, res, hget, hout, hj⟩
        cases i with
        | zero => simp at hget
        | succ i => exact ⟨i, res, by simpa using hget, hout, by omega⟩
    | some res0 =>
      cases hres : res0.amountOut with
      | none =>
        simp only [validOutQuotes, hres]
        rw [ih (k + 1) j o]
        constructor
        · rintro ⟨i, res, hget, hout, hj⟩
          exact ⟨i + 1, res, by simpa using hget, hout, by omega⟩
        · rintro ⟨i, res, hget, hout, hj⟩
          cases i with
          | zero =>
            exfalso
            simp only [List.get?, Option.some.injEq] at hget
            subst hget
            rw [hres] at hout
            exact Option.noConfusion hout
          | succ i => exact ⟨i, res, by simpa using hget, hout, by omega⟩
      | some o0 =>
        simp only [validOutQuotes, hres, List.mem_cons, Prod.mk.injEq]
        rw [ih (k + 1) j o]
        constructor
        · rintro (⟨hj, ho⟩ | ⟨i, res, hget, hout, hj⟩)
          · exact ⟨0, res0, by simp, by rw [hres, ho], by omega⟩
          · exact ⟨i + 1, res, by simpa using hget, hout, by omega⟩
        · rintro ⟨i, res, hget, hout, hj⟩
          cases i with
          | zero =>
            left
            simp only [List.get?, Option.some.injEq] at hget
            subst hget
            rw [hres, Option.some.injEq] at hout
            exact ⟨by omega, hout.symm⟩
          | succ i => right; exact ⟨i, res, by simpa using hget, hout, by omega⟩

theorem validInQuotes_mem_iff (results : List (Option QuoteAmounts)) :
    ∀ k j o, ((j, o) ∈ validInQuotes k results ↔
      ∃ i res, results.get? i = some (some res) ∧ res.amountIn = some o ∧ j = k + i) := by
  induction results with
  | nil =>
    intro k j o
    simp [validInQuotes]
  | cons r rest ih =>
    intro k j o
    cases r with
    | none =>
      simp only [validInQuotes]
      rw [ih (k + 1) j o]
      constructor
      · rintro ⟨i, res, hget, hout, hj⟩
        exact ⟨i + 1, res, by simpa using hget, hout, by omega⟩
      · rintro ⟨i, res, hget, hout, hj⟩
        cases i with
        | zero => simp at hget
        | succ i => exact ⟨i, res, by simpa using hget, hout, by omega⟩
    | some res0 =>
      cases hres : res0.amountIn with
      | none =>
        simp only [validInQuotes, hres]
        rw [ih (k + 1) j o]
        constructor
        · rintro ⟨i, res, hget, hout, hj⟩
          exact ⟨i + 1, res, by simpa using hget, hout, by omega⟩
        · rintro ⟨i, res, hget, hout, hj⟩
          cases i with
          | zero =>
            exfalso
            simp only [List.get?, Option.some.injEq] at hget
            subst hget
            rw [hres] at hout
            exact Option.noConfusion hout
          | succ i => exact ⟨i, res, by simpa using hget, hout, by omega⟩
      | some o0 =>
        simp only [validInQuotes, hres, List.mem_cons, Prod.mk.injEq]
        rw [ih (k + 1) j o]
        constructor
        · rintro (⟨hj, ho⟩ | ⟨i, res, hget, hout, hj⟩)
          · exact ⟨0, res0, by simp, by rw [hres, ho], by omega⟩
          · exact ⟨i + 1, res, by simpa using hget, hout, by omega⟩
        · rintro ⟨i, res, hget, hout, hj⟩
          cases i with
          | zero =>
            left
            simp only [List.get?, Option.some.injEq] at hget
            subst hget
            rw [hres, Option.some.injEq] at hout
            exact ⟨by omega, hout.symm⟩
          | succ i => right; exact ⟨i, res, by simpa using hget, hout, by omega⟩

theorem validOutQuotes_ge (results : List (Option QuoteAmounts)) :
    ∀ k, ∀ c ∈ validOutQuotes k results, k ≤ c.1 := by
  induction results with
  | nil => intro k c hc; simp [validOutQuotes] at hc
  | cons r rest ih =>
    intro k c hc
    cases r with
    | none =>
      simp only [validOutQuotes] at hc
      exact le_trans (Nat.le_succ k) (ih (k + 1) c hc)
    | some res =>
      cases hres : res.amountOut with
      | none =>
        simp only [validOutQuotes, hres] at hc
        exact le_trans (Nat.le_succ k) (ih (k + 1) c hc)
      | some o =>
        simp only [validOutQuotes, hres, List.mem_cons] at hc
        rcases hc with hc | hc
        · subst hc; exact le_refl _
        · exact le_trans (Nat.le_succ k) (ih (k + 1) c hc)

theorem validInQuotes_ge (results : List (Option QuoteAmounts)) :
    ∀ k, ∀ c ∈ validInQuotes k results, k ≤ c.1 := by
  induction results with
  | nil => intro k c hc; simp [validInQuotes] at hc
  | cons r rest ih =>
    intro k c hc
    cases r with
    | none =>
      simp only [validInQuotes] at hc
      exact le_trans (Nat.le_succ k) (ih (k + 1) c hc)
    | some res =>
      cases hres : res.amountIn with
      | none =>
        simp only [validInQuotes, hres] at hc
        exact le_trans (Nat.le_succ k) (ih (k + 1) c hc)
      | some o =>
        simp only [validInQuotes, hres, List.mem_cons] at hc
        rcases hc with hc | hc
        · subst hc; exact le_refl _
        · exact le_trans (Nat.le_succ k) (ih (k + 1) c hc)

theorem validOutQuotes_pairwise (results : List (Option QuoteAmounts)) :
    ∀ k, (validOutQuotes k results).Pairwise (fun a b => a.1 < b.1) := by
  induction results with
  | nil => intro k; simp [validOutQuotes]
  | cons r rest ih =>
    intro k
    cases r with
    | none => simpa only [validOutQuotes] using ih (k + 1)
    | some res =>
      cases hres : res.amountOut with
      | none => simpa only [validOutQuotes, hres] using ih (k + 1)
      | some o =>
        simp only [validOutQuotes, hres]
        rw [List.pairwise_cons]
        refine ⟨?_, ih (k + 1)⟩
        intro c hc
        exact lt_of_lt_of_le (Nat.lt_succ_self k) (validOutQuotes_ge rest (k + 1) c hc)

theorem validInQuotes_pairwise (results : List (Option QuoteAmounts)) :
    ∀ k, (validInQuotes k results).Pairwise (fun a b => a.1 < b.1) := by
  induction results with
  | nil => intro k; simp [validInQuotes]
  | cons r rest ih =>
    intro k
    cases r with
    | none => simpa only [validInQuotes] using ih (k + 1)
    | some res =>
      cases hres : res.amountIn with
      | none => simpa only [validInQuotes, hres] using ih (k + 1)
      | some o =>
        simp only [validInQuotes, hres]
        rw [List.pairwise_cons]
        refine ⟨?_, ih (k + 1)⟩
        intro c hc
        exact lt_of_lt_of_le (Nat.lt_succ_self k) (validInQuotes_ge rest (k + 1) c hc)

theorem bestQuoteGo_exactInput (amt : CurrencyAmountV3) (cin cout : TokenV3)
    (routes : List RouteV3) (results : List (Option QuoteAmounts)) :
    ∀ (k : Nat) (acc : CurrentBest),
      bestQuoteGo TradeTypeV3.EXACT_INPUT amt cin cout routes k results acc =
        runBestOut amt cout routes (validOutQuotes k results) acc := by
  induction results with
  | nil => intro k acc; rfl
  | cons r rest ih =>
    intro k acc
    cases r with
    | none => simp only [bestQuoteGo, bestQuoteStep, validOutQuotes, ih]
    | some res =>
      cases hres : res.amountOut with
      | none => simp only [bestQuoteGo, bestQuoteStep, validOutQuotes, hres, ih]
      | some o =>
        simp only [bestQuoteGo, bestQuoteStep, validOutQuotes, hres, runBestOut, ih]

theorem bestQuoteGo_exactOutput (amt : CurrencyAmountV3) (cin cout : TokenV3)
    (routes : List RouteV3) (results : List (Option QuoteAmounts)) :
    ∀ (k : Nat) (acc : CurrentBest),
      bestQuoteGo TradeTypeV3.EXACT_OUTPUT amt cin cout routes k results acc =
        runBestIn amt cin routes (validInQuotes k results) acc := by
  induction results with
  | nil => intro k acc; rfl
  | cons r rest ih =>
    intro k acc
    cases r with
    | none => simp only [bestQuoteGo, bestQuoteStep, validInQuotes, ih]
    | some res =>
      cases hres : res.amountIn with
      | none => simp only [bestQuoteGo, bestQuoteStep, validInQuotes, hres, ih]
      | some o =>
        simp only [bestQuoteGo, bestQuoteStep, validInQuotes, hres, runBestIn, ih]

theorem runBestOut_installed (amt : CurrencyAmountV3) (cout : TokenV3)
    (routes : List RouteV3) (cands : List (Nat × Nat)) :
    ∀ j o : Nat,
      runBestOut amt cout routes cands
          { bestRoute := routes.get? j, amountIn := some amt,
            amountOut := some { currency := cout, quotient := o } } =
        { bestRoute := routes.get? (selMaxFirst (j, o) cands).1, amountIn := some amt,
          amountOut := some { currency := cout, quotient := (selMaxFirst (j, o) cands).2 } } := by
  induction cands with
  | nil => intro j o; rfl
  | cons c rest ih =>
    intro j o
    obtain ⟨k, v⟩ := c
    by_cases hlt : o < v
    · simp only [runBestOut, selMaxFirst, hlt, if_true, ih]
    · simp only [runBestOut, selMaxFirst, hlt, if_false, ih]

theorem runBestIn_installed (amt : CurrencyAmountV3) (cin : TokenV3)
    (routes : List RouteV3) (cands : List (Nat × Nat)) :
    ∀ j o : Nat,
      runBestIn amt cin routes cands
          { bestRoute := routes.get? j,
            amountIn := some { currency := cin, quotient := o },
            amountOut := some amt } =
        { bestRoute := routes.get? (selMinFirst (j, o) cands).1,
          amountIn := some { currency := cin, quotient := (selMinFirst (j, o) cands).2 },
          amountOut := some amt } := by
  induction cands with
  | nil => intro j o; rfl
  | cons c rest ih =>
    intro j o
    obtain ⟨k, v⟩ := c
    by_cases hlt : v < o
    · simp only [runBestIn, selMinFirst, hlt, if_true, ih]
    · simp only [runBestIn, selMinFirst, hlt, if_false, ih]

theorem selMaxFirst_spec (cands : List (Nat × Nat)) :
    ∀ acc : Nat × Nat, (acc :: cands).Pairwise (fun a b => a.1 < b.1) →
      selMaxFirst acc cands ∈ acc :: cands ∧
      ∀ c ∈ acc :: cands, c.2 ≤ (selMaxFirst acc cands).2 ∧
        (c.2 = (selMaxFirst acc cands).2 → (selMaxFirst acc cands).1 ≤ c.1) := by
  induction cands with
  | nil =>
    intro acc _
    refine ⟨List.mem_singleton.mpr rfl, ?_⟩
    intro c hc
    rw [List.mem_singleton] at hc
    subst hc
    exact ⟨le_refl _, fun _ => le_refl _⟩
  | cons c rest ih =>
    intro acc hpw
    rw [List.pairwise_cons] at hpw
    obtain ⟨haccall, hpw2⟩ := hpw
    have hpwc : (c :: rest).Pairwise (fun a b => a.1 < b.1) := hpw2
    rw [List.pairwise_cons] at hpw2
    obtain ⟨hcall, hpwrest⟩ := hpw2
    by_cases hlt : acc.2 < c.2
    · obtain ⟨hmem, hall⟩ := ih c hpwc
      simp only [selMaxFirst, if_pos hlt]
      refine ⟨List.mem_cons_of_mem _ hmem, ?_⟩
      intro d hd
      rcases List.mem_cons.mp hd with hd | hd
      · subst hd
        have hc2 : c.2 ≤ (selMaxFirst c rest).2 := (hall c (List.mem_cons_self _ _)).1
        have hd2 : d.2 < (selMaxFirst c rest).2 := lt_of_lt_of_le hlt hc2
        exact ⟨le_of_lt hd2, fun heq => absurd heq (ne_of_lt hd2)⟩
      · exact hall d hd
    · have hpwa : (acc :: rest).Pairwise (fun a b => a.1 < b.1) := by
        rw [List.pairwise_cons]
        exact ⟨fun d hd => haccall d (List.mem_cons_of_mem _ hd), hpwrest⟩
      obtain ⟨hmem, hall⟩ := ih acc hpwa
      simp only [selMaxFirst, if_neg hlt]
      constructor
      · rcases List.mem_cons.mp hmem with h | h
        · rw [h]; exact List.mem_cons_self _ _
        · exact List.mem_cons_of_mem _ (List.mem_cons_of_mem _ h)
      · intro d hd
        rcases List.mem_cons.mp hd with hd | hd
        · subst hd
          exact hall d (List.mem_cons_self _ _)
        · rcases List.mem_cons.mp hd with hd2 | hd2
          · subst hd2
            have hacc2 : acc.2 ≤ (selMaxFirst acc rest).2 :=
              (hall acc (List.mem_cons_self _ _)).1
            have hc2 : d.2 ≤ acc.2 := not_lt.mp hlt
            refine ⟨le_trans hc2 hacc2, ?_⟩
            intro heq
            have haccsel : acc.2 = (selMaxFirst acc rest).2 :=
              le_antisymm hacc2 (heq ▸ hc2)
            have hsel1 : (selMaxFirst acc rest).1 ≤ acc.1 :=
              (hall acc (List.mem_cons_self _ _)).2 haccsel
            exact le_trans hsel1 (le_of_lt (haccall d (List.mem_cons_self _ _)))
          · exact hall d (List.mem_cons_of_mem _ hd2)

theorem selMinFirst_spec (cands : List (Nat × Nat)) :
    ∀ acc : Nat × Nat, (acc :: cands).Pairwise (fun a b => a.1 < b.1) →
      selMinFirst acc cands ∈ acc :: cands ∧
      ∀ c ∈ acc :: cands, (selMinFirst acc cands).2 ≤ c.2 ∧
        (c.2 = (selMinFirst acc cands).2 → (selMinFirst acc cands).1 ≤ c.1) := by
  induction cands with
  | nil =>
    intro acc _
    refine ⟨List.mem_singleton.mpr rfl, ?_⟩
    intro c hc
    rw [List.mem_singleton] at hc
    subst hc
    exact ⟨le_refl _, fun _ => le_refl _⟩
  | cons c rest ih =>
    intro acc hpw
    rw [List.pairwise_cons] at hpw
    obtain ⟨haccall, hpw2⟩ := hpw
    have hpwc : (c :: rest).Pairwise (fun a b => a.1 < b.1) := hpw2
    rw [List.pairwise_cons] at hpw2
    obtain ⟨hcall, hpwrest⟩ := hpw2
    by_cases hlt : c.2 < acc.2
    · obtain ⟨hmem, hall⟩ := ih c hpwc
      simp only [selMinFirst, if_pos hlt]
      refine ⟨List.mem_cons_of_mem _ hmem, ?_⟩
      intro d hd
      rcases List.mem_cons.mp hd with hd | hd
      · subst hd
        have hc2 : (selMinFirst c rest).2 ≤ c.2 := (hall c (List.mem_cons_self _ _)).1
        have hd2 : (selMinFirst c rest).2 < d.2 := lt_of_le_of_lt hc2 hlt
        exact ⟨le_of_lt hd2, fun heq => absurd heq.symm (ne_of_lt hd2)⟩
      · exact hall d hd
    · have hpwa : (acc :: rest).Pairwise (fun a b => a.1 < b.1) := by
        rw [List.pairwise_cons]
        exact ⟨fun d hd => haccall d (List.mem_cons_of_mem _ hd), hpwrest⟩
      obtain ⟨hmem, hall⟩ := ih acc hpwa
      simp only [selMinFirst, if_neg hlt]
      constructor
      · rcases List.mem_cons.mp hmem with h | h
        · rw [h]; exact List.mem_cons_self _ _
        · exact List.mem_cons_of_mem _ (List.mem_cons_of_mem _ h)
      · intro d hd
        rcases List.mem_cons.mp hd with hd | hd
        · subst hd
          exact hall d (List.mem_cons_self _ _)
        · rcases List.mem_cons.mp hd with hd2 | hd2
          · subst hd2
            have hacc2 : (selMinFirst acc rest).2 ≤ acc.2 :=
              (hall acc (List.mem_cons_self _ _)).1
            have hc2 : acc.2 ≤ d.2 := not_lt.mp hlt
            refine ⟨le_trans hacc2 hc2, ?_⟩
            intro heq
            have haccsel : acc.2 = (selMinFirst acc rest).2 :=
              le_antisymm (heq ▸ hc2) hacc2
            have hsel1 : (selMinFirst acc rest).1 ≤ acc.1 :=
              (hall acc (List.mem_cons_self _ _)).2 haccsel
            exact le_trans hsel1 (le_of_lt (haccall d (List.mem_cons_self _ _)))
          · exact hall d (List.mem_cons_of_mem _ hd2)

/-! ## Claims about `w3IsTradeBetter` -/

/-- C3: when exactly one of the two trades is present the comparator reports
the present one as the better trade without consulting execution prices — with
only `tradeA` present it returns `some false` (`tradeB` is not better), with
only `tradeB` present it returns `some true`, and with neither present it
returns `undefined` (`none`) — for every execution-price assignment and every
`minimumDelta`. -/
theorem w3IsTradeBetter_presence (execPrice : W3Trade → ℚ) (minimumDelta : ℚ)
    (a b : W3Trade) :
    w3IsTradeBetter execPrice (some a) none minimumDelta = Except.ok (some false) ∧
    w3IsTradeBetter execPrice none (some b) minimumDelta = Except.ok (some true) ∧
    w3IsTradeBetter execPrice none none minimumDelta = Except.ok none :=
  ⟨rfl, rfl, rfl⟩

/-- C2: the trade comparator does *not* fault when only the output currencies
of two otherwise comparable trades differ, because the source compares
`tradeB.outputAmount`'s currency with itself; it does fault when the trade
types differ.  `tradeAB1` and `tradeAC` share trade type and input currency
but have different output currencies, yet the comparator returns a value
instead of throwing. -/
theorem w3IsTradeBetter_outputCurrencyNotChecked :
    tradeAB1.tradeType = tradeAC.tradeType ∧
    tradeAB1.inputAmount.token.currency = tradeAC.inputAmount.token.currency ∧
    tradeAB1.outputAmount.token.currency ≠ tradeAC.outputAmount.token.currency ∧
    w3IsTradeBetter sampleExecPrice (some tradeAB1) (some tradeAC) 0 =
      Except.ok (some false) ∧
    w3IsTradeBetter sampleExecPrice (some tradeAB1) (some tradeABexactOut) 0 =
      Except.error TradeFault.notComparable := by
  refine ⟨rfl, rfl, by decide, rfl, rfl⟩

/-- C4: for two present comparable trades the comparator with `minimumDelta =
0` returns `true` exactly when `tradeA`'s execution price is strictly lower
than `tradeB`'s (so identical execution prices give `false`), and with
`minimumDelta > 0` it returns `true` exactly when `tradeA`'s execution price
multiplied by `(1 + minimumDelta)` is still strictly lower than `tradeB`'s. -/
theorem w3IsTradeBetter_executionPrice (execPrice : W3Trade → ℚ) (a b : W3Trade)
    (minimumDelta : ℚ) (hType : a.tradeType = b.tradeType)
    (hInput : a.inputAmount.token.currency = b.inputAmount.token.currency) :
    w3IsTradeBetter execPrice (some a) (some b) 0 =
      Except.ok (some (decide (execPrice a < execPrice b))) ∧
    (execPrice a = execPrice b →
      w3IsTradeBetter execPrice (some a) (some b) 0 = Except.ok (some false)) ∧
    (0 < minimumDelta →
      (w3IsTradeBetter execPrice (some a) (some b) minimumDelta = Except.ok (some true) ↔
        execPrice a * (1 + minimumDelta) < execPrice b)) := by
  have hguard : ¬ (a.tradeType ≠ b.tradeType
      ∨ w3currencyEquals a.inputAmount.token.currency b.inputAmount.token.currency = false
      ∨ w3currencyEquals b.outputAmount.token.currency b.outputAmount.token.currency = false) := by
    simp [w3currencyEquals, hType, hInput]
  refine ⟨?_, ?_, ?_⟩
  · simp [w3IsTradeBetter, hguard, W3_ZERO_PERCENT]
  · intro h
    simp [w3IsTradeBetter, hguard, W3_ZERO_PERCENT, h]
  · intro hδ
    have hδ0 : ¬ minimumDelta = W3_ZERO_PERCENT := by
      simpa [W3_ZERO_PERCENT] using ne_of_gt hδ
    have hcomm : execPrice a * (minimumDelta + W3_ONE_HUNDRED_PERCENT) =
        execPrice a * (1 + minimumDelta) := by
      rw [W3_ONE_HUNDRED_PERCENT]; ring
    simp [w3IsTradeBetter, if_neg hguard, if_neg hδ0, hcomm]

/-- C4 witness: concrete comparable trades discharging the hypotheses of
`w3IsTradeBetter_executionPrice`. -/
theorem w3IsTradeBetter_executionPrice_witness :
    tradeAB1.tradeType = tradeAB2.tradeType ∧
    tradeAB1.inputAmount.token.currency = tradeAB2.inputAmount.token.currency ∧
    (w3IsTradeBetter sampleExecPrice (some tradeAB1) (some tradeAB2) 0 =
        Except.ok (some (decide (sampleExecPrice tradeAB1 < sampleExecPrice tradeAB2))) ∧
      (sampleExecPrice tradeAB1 = sampleExecPrice tradeAB2 →
        w3IsTradeBetter sampleExecPrice (some tradeAB1) (some tradeAB2) 0 =
          Except.ok (some false)) ∧
      (0 < (1 : ℚ) →
        (w3IsTradeBetter sampleExecPrice (some tradeAB1) (some tradeAB2) 1 =
            Except.ok (some true) ↔
          sampleExecPrice tradeAB1 * (1 + 1) < sampleExecPrice tradeAB2))) :=
  ⟨rfl, rfl,
    w3IsTradeBetter_executionPrice sampleExecPrice tradeAB1 tradeAB2 1 rfl rfl⟩

/-- C5: the realized liquidity-provider fee of `computeTradePriceBreakdown`
compounds multiplicatively: it equals `1 - (1 - 0.003) ^ n` for a route of `n`
pairs, in particular `0.005991` exactly for a two-pair route (exact rational
arithmetic), and the returned price impact net of fees subtracts exactly this
fraction. -/
theorem computeTradePriceBreakdown_realizedLPFee (priceImpact : W3Trade → ℚ) (t : W3Trade) :
    realizedLPFeeFraction t = 1 - (1 - 3 / 1000) ^ t.route.pairs.length ∧
    (t.route.pairs.length = 2 → realizedLPFeeFraction t = 5991 / 1000000) ∧
    (computeTradePriceBreakdown priceImpact (some t)).priceImpactWithoutFee =
      some (priceImpact t - realizedLPFeeFraction t) := by
  have hfrac : realizedLPFeeFraction t = 1 - (1 - 3 / 1000) ^ t.route.pairs.length := by
    unfold realizedLPFeeFraction
    rw [foldl_mul_fee]
    simp only [INPUT_FRACTION_AFTER_FEE, ONE_HUNDRED_PERCENT, BASE_FEE]
    norm_num
  refine ⟨hfrac, ?_, rfl⟩
  intro h2
  rw [hfrac, h2]
  norm_num

/-- C5 witness: `tradeAB1` routes through two pairs and realizes a fee of
exactly `0.005991`. -/
theorem computeTradePriceBreakdown_realizedLPFee_witness :
    tradeAB1.route.pairs.length = 2 ∧ realizedLPFeeFraction tradeAB1 = 5991 / 1000000 :=
  ⟨rfl, (computeTradePriceBreakdown_realizedLPFee (fun _ => 0) tradeAB1).2.1 rfl⟩

/-- C6: `warningSeverity` is total into severities at most 4, monotonically
non-decreasing in the price impact when the four thresholds ascend, yields 4
for an undefined price impact, and yields 4 for any impact at or beyond the
blocking threshold. -/
theorem warningSeverity_monotone (th : PriceImpactThresholds)
    (_hasc : th.W3ALLOWED_PRICE_IMPACT_LOW < th.W3ALLOWED_PRICE_IMPACT_MEDIUM ∧
        th.W3ALLOWED_PRICE_IMPACT_MEDIUM < th.W3ALLOWED_PRICE_IMPACT_HIGH ∧
        th.W3ALLOWED_PRICE_IMPACT_HIGH < th.W3BLOCKED_PRICE_IMPACT_NON_EXPERT)
    (p q : ℚ) (hpq : p ≤ q) :
    (∀ priceImpact, warningSeverity th priceImpact ≤ 4) ∧
    warningSeverity th (some p) ≤ warningSeverity th (some q) ∧
    warningSeverity th none = 4 ∧
    (th.W3BLOCKED_PRICE_IMPACT_NON_EXPERT ≤ q → warningSeverity th (some q) = 4) := by
  refine ⟨?_, ?_, rfl, ?_⟩
  · intro priceImpact
    cases priceImpact with
    | none => simp [warningSeverity]
    | some r =>
      simp only [warningSeverity]
      split_ifs <;> omega
  · simp only [warningSeverity]
    split_ifs <;> first | omega | (exfalso; linarith)
  · intro hq
    simp only [warningSeverity]
    rw [if_pos (not_lt.mpr hq)]

/-- C6 witness: the sample thresholds ascend and a pair of concrete impacts
discharges the hypotheses. -/
theorem warningSeverity_monotone_witness :
    (sampleThresholds.W3ALLOWED_PRICE_IMPACT_LOW <
        sampleThresholds.W3ALLOWED_PRICE_IMPACT_MEDIUM ∧
      sampleThresholds.W3ALLOWED_PRICE_IMPACT_MEDIUM <
        sampleThresholds.W3ALLOWED_PRICE_IMPACT_HIGH ∧
      sampleThresholds.W3ALLOWED_PRICE_IMPACT_HIGH <
        sampleThresholds.W3BLOCKED_PRICE_IMPACT_NON_EXPERT) ∧
    (2 : ℚ) / 100 ≤ 4 / 100 ∧
    ((∀ priceImpact, warningSeverity sampleThresholds priceImpact ≤ 4) ∧
      warningSeverity sampleThresholds (some (2 / 100)) ≤
        warningSeverity sampleThresholds (some (4 / 100)) ∧
      warningSeverity sampleThresholds none = 4 ∧
      (sampleThresholds.W3BLOCKED_PRICE_IMPACT_NON_EXPERT ≤ 4 / 100 →
        warningSeverity sampleThresholds (some (4 / 100)) = 4)) :=
  ⟨by norm_num [sampleThresholds], by norm_num,
    warningSeverity_monotone sampleThresholds (by norm_num [sampleThresholds])
      (2 / 100) (4 / 100) (by norm_num)⟩

/-! ## Claims about the gas-estimation selection -/

/-- C1 counterexample: with two candidates that both succeeded gas estimation
the orchestrator submits the *first* one, not the last as claimed. -/
theorem selectSwapCall_bothSucceed_selectsFirst :
    selectSwapCall [EstimatedSwapCall.successful sampleCallA 150000,
        EstimatedSwapCall.successful sampleCallB 180000] =
      SwapAttemptOutcome.submit sampleCallA 150000 ∧
    SwapAttemptOutcome.submit sampleCallA 150000 ≠
      SwapAttemptOutcome.submit sampleCallB 180000 := by
  refine ⟨rfl, ?_⟩
  simp

/-- C1 amended: the orchestrator selects the first candidate that succeeded
estimation and whose immediate successor, if any, also succeeded.  For two
candidates: both succeeding selects the first; a success followed by a failure
matches nothing, so the last captured failure (the second candidate's error)
is thrown; two failures throw the second's error; a failure followed by a
success selects the success; a lone success is selected, a lone failure's
error is thrown; and an empty candidate list throws the generic fault. -/
theorem selectSwapCall_spec (cA cB : SwapCallDescriptor) (gA gB : Nat) (eA eB : String) :
    selectSwapCall [EstimatedSwapCall.successful cA gA, EstimatedSwapCall.successful cB gB] =
      SwapAttemptOutcome.submit cA gA ∧
    selectSwapCall [EstimatedSwapCall.successful cA gA, EstimatedSwapCall.failed cB eB] =
      SwapAttemptOutcome.thrown eB ∧
    selectSwapCall [EstimatedSwapCall.failed cA eA, EstimatedSwapCall.failed cB eB] =
      SwapAttemptOutcome.thrown eB ∧
    selectSwapCall [EstimatedSwapCall.failed cA eA, EstimatedSwapCall.successful cB gB] =
      SwapAttemptOutcome.submit cB gB ∧
    selectSwapCall [EstimatedSwapCall.successful cA gA] = SwapAttemptOutcome.submit cA gA ∧
    selectSwapCall [EstimatedSwapCall.failed cA eA] = SwapAttemptOutcome.thrown eA ∧
    selectSwapCall [] = SwapAttemptOutcome.thrown
      "Unexpected error. Please contact support: none of the calls threw an error" :=
  ⟨rfl, rfl, rfl, rfl, rfl, rfl, rfl⟩

/-! ## Claims about the swap call builder -/

/-- C7 counterexample: with every builder input present but the v1 version
toggled, an `EXACT_INPUT` trade yields exactly one descriptor and no
fee-on-transfer variant, so the fee-on-transfer descriptor is not appended
for every `EXACT_INPUT` trade with all inputs present. -/
theorem useSwapCallArguments_v1_noFeeOnTransfer :
    tradeAB1.tradeType = W3TradeType.EXACT_INPUT ∧
    useSwapCallArguments (some tradeAB1) 50 none (some "0xaccount") (some 1) true
        (some Version.v1) none (some 1700000000) sampleRouterContract (some sampleV1Exchange) =
      [{ contract := sampleV1Exchange, trade := tradeAB1, feeOnTransfer := false,
         allowedSlippage := (50 : ℚ) / W3BIPS_BASE, recipient := "0xaccount",
         deadline := 1700000000 }] :=
  ⟨rfl, rfl⟩

/-- C7 amended: on the v2 router path with every input present the builder
produces exactly the standard descriptor followed by a fee-on-transfer
descriptor precisely when the trade is `EXACT_INPUT`; with the deadline, the
trade or the account missing it yields the empty candidate list. -/
theorem useSwapCallArguments_v2_spec (t : W3Trade) (slip : Nat) (acct : String)
    (cid dl : Nat) (router : Contract) (v1x : Option Contract) :
    useSwapCallArguments (some t) slip none (some acct) (some cid) true (some Version.v2)
        none (some dl) router v1x =
      { contract := router, trade := t, feeOnTransfer := false,
        allowedSlippage := (slip : ℚ) / W3BIPS_BASE, recipient := acct, deadline := dl } ::
      (if t.tradeType = W3TradeType.EXACT_INPUT then
        [{ contract := router, trade := t, feeOnTransfer := true,
           allowedSlippage := (slip : ℚ) / W3BIPS_BASE, recipient := acct, deadline := dl }]
      else []) ∧
    useSwapCallArguments (some t) slip none (some acct) (some cid) true (some Version.v2)
        none none router v1x = [] ∧
    useSwapCallArguments none slip none (some acct) (some cid) true (some Version.v2)
        none (some dl) router v1x = [] ∧
    useSwapCallArguments (some t) slip none none (some cid) true (some Version.v2)
        none (some dl) router v1x = [] :=
  ⟨rfl, rfl, rfl, rfl⟩

/-! ## Claims about the permit signer -/

theorem isSignatureDataValid_iff (sig : Option SignatureData) (account : String)
    (transactionDeadline : Nat) (tokenAddress : String) (nonceNumber : Nat)
    (spender : String) (amountQuotient : Nat) :
    isSignatureDataValid sig account transactionDeadline tokenAddress nonceNumber
        spender amountQuotient = true ↔
      ∃ s, sig = some s ∧ s.owner = account ∧ s.deadline ≥ transactionDeadline ∧
        s.tokenAddress = tokenAddress ∧ s.nonce = nonceNumber ∧ s.spender = spender ∧
        (s.amountOrAllowed = SignatureAmount.allowed ∨
          s.amountOrAllowed = SignatureAmount.amount amountQuotient) := by
  cases sig with
  | none => simp [isSignatureDataValid]
  | some s =>
    simp only [isSignatureDataValid, Bool.and_eq_true, beq_iff_eq, decide_eq_true_eq,
      Option.some.injEq]
    constructor
    · rintro ⟨⟨⟨⟨⟨howner, hdl⟩, htok⟩, hnonce⟩, hsp⟩, hamt⟩
      refine ⟨s, rfl, howner, hdl, htok, hnonce, hsp, ?_⟩
      cases hao : s.amountOrAllowed with
      | allowed => exact Or.inl rfl
      | amount v =>
        right
        rw [hao] at hamt
        simp only [beq_iff_eq] at hamt
        rw [hamt]
    · rintro ⟨s2, hs2, howner, hdl, htok, hnonce, hsp, hamt⟩
      subst hs2
      refine ⟨⟨⟨⟨⟨howner, hdl⟩, htok⟩, hnonce⟩, hsp⟩, ?_⟩
      rcases hamt with h | h
      · rw [h]
      · rw [h]
        simp

/-- C8: in an applicable, nonce-loaded permit context the hook state is
`SIGNED` exactly when the stored signature's owner, token address, nonce and
spender equal the current context, its deadline is at or after the required
transaction deadline, and (for amount-type permits) its signed amount equals
the currently required approval amount; when it is `SIGNED` the stored
signature is exposed, and otherwise the state is `NOT_SIGNED` and the stored
signature is not exposed. -/
theorem useERC20Permit_signed_iff (ctx : PermitHookContext)
    (amountQuotient nonceNumber chainId transactionDeadline : Nat)
    (account tokenAddress spender : String) (permitInfo : PermitInfo)
    (hamt : ctx.currencyAmountQuotient = some amountQuotient)
    (hacct : ctx.account = some account)
    (hchain : ctx.chainId = some chainId)
    (hdl : ctx.transactionDeadline = some transactionDeadline)
    (htok : ctx.tokenAddress = some tokenAddress)
    (hsp : ctx.spender = some spender)
    (hpi : ctx.permitInfo = some permitInfo)
    (hargent : ctx.isArgentWallet = false)
    (hcontract : ctx.eip2612Contract = true)
    (hprov : ctx.provider = true)
    (hnv : ctx.nonceValid = true)
    (hnl : ctx.nonceLoading = false)
    (hnr : ctx.nonceResult = some nonceNumber) :
    ((useERC20Permit ctx).state = UseERC20PermitState.SIGNED ↔
      ∃ s, ctx.signatureData = some s ∧ s.owner = account ∧
        s.deadline ≥ transactionDeadline ∧ s.tokenAddress = tokenAddress ∧
        s.nonce = nonceNumber ∧ s.spender = spender ∧
        (s.amountOrAllowed = SignatureAmount.allowed ∨
          s.amountOrAllowed = SignatureAmount.amount amountQuotient)) ∧
    ((useERC20Permit ctx).state = UseERC20PermitState.SIGNED →
      (useERC20Permit ctx).signatureData = ctx.signatureData) ∧
    ((useERC20Permit ctx).state ≠ UseERC20PermitState.SIGNED →
      (useERC20Permit ctx).state = UseERC20PermitState.NOT_SIGNED ∧
      (useERC20Permit ctx).signatureData = none) := by
  have hfn : useERC20Permit ctx =
      (if isSignatureDataValid ctx.signatureData account transactionDeadline tokenAddress
          nonceNumber spender amountQuotient then
        { state := UseERC20PermitState.SIGNED, signatureData := ctx.signatureData }
      else { state := UseERC20PermitState.NOT_SIGNED, signatureData := none }) := by
    simp [useERC20Permit, hamt, hacct, hchain, hdl, htok, hsp, hpi, hargent, hcontract,
      hprov, hnv, hnl, hnr]
  by_cases hv : isSignatureDataValid ctx.signatureData account transactionDeadline
      tokenAddress nonceNumber spender amountQuotient = true
  · rw [hfn, if_pos hv]
    refine ⟨?_, fun _ => rfl, fun hne => absurd rfl hne⟩
    constructor
    · intro _
      exact (isSignatureDataValid_iff ctx.signatureData account transactionDeadline
        tokenAddress nonceNumber spender amountQuotient).mp hv
    · intro _
      rfl
  · rw [hfn, if_neg hv]
    refine ⟨?_, ?_, fun _ => ⟨rfl, rfl⟩⟩
    · constructor
      · intro hcontra
        exact absurd hcontra (by decide)
      · intro hex
        exact absurd ((isSignatureDataValid_iff ctx.signatureData account transactionDeadline
          tokenAddress nonceNumber spender amountQuotient).mpr hex) hv
    · intro hcontra
      exact absurd hcontra (by decide)

/-- C8 witness: a concrete applicable context whose stored signature matches,
discharging every hypothesis of `useERC20Permit_signed_iff`. -/
theorem useERC20Permit_signed_iff_witness :
    samplePermitCtx.currencyAmountQuotient = some 1000 ∧
    samplePermitCtx.nonceResult = some 7 ∧
    (((useERC20Permit samplePermitCtx).state = UseERC20PermitState.SIGNED ↔
      ∃ s, samplePermitCtx.signatureData = some s ∧ s.owner = "0xowner" ∧
        s.deadline ≥ 1700000000 ∧ s.tokenAddress = "0xtoken" ∧
        s.nonce = 7 ∧ s.spender = "0xspender" ∧
        (s.amountOrAllowed = SignatureAmount.allowed ∨
          s.amountOrAllowed = SignatureAmount.amount 1000)) ∧
    ((useERC20Permit samplePermitCtx).state = UseERC20PermitState.SIGNED →
      (useERC20Permit samplePermitCtx).signatureData = samplePermitCtx.signatureData) ∧
    ((useERC20Permit samplePermitCtx).state ≠ UseERC20PermitState.SIGNED →
      (useERC20Permit samplePermitCtx).state = UseERC20PermitState.NOT_SIGNED ∧
      (useERC20Permit samplePermitCtx).signatureData = none)) :=
  ⟨rfl, rfl,
    useERC20Permit_signed_iff samplePermitCtx 1000 7 1 1700000000 "0xowner" "0xtoken"
      "0xspender" { type := PermitType.AMOUNT, name := "USD Coin", version := some "2" }
      rfl rfl rfl rfl rfl rfl rfl rfl rfl rfl rfl rfl rfl⟩

/-! ## Claims about the client-side v3 trade derivation -/

/-- C9: among the valid quoted candidates the reduce of `useClientSideV3Trade`
selects, under `EXACT_INPUT`, the route with the maximal `amountOut` (ties
resolved in favor of the first-seen candidate), and under `EXACT_OUTPUT` the
route with the minimal `amountIn` (ties likewise first-seen); when no
candidate yields a valid quote the accumulator stays empty and the derivation
returns the `NO_ROUTE_FOUND` state with no trade as a state value. -/
theorem useClientSideV3Trade_bestQuote
    (amt : CurrencyAmountV3) (cin cout otherCurrency : TokenV3) (routes : List RouteV3)
    (results : List (Option QuoteAmounts)) (quotesResults : List QuoteCallState)
    (routesLoading createTradeError : Bool) :
    (validOutQuotes 0 results ≠ [] →
      ∃ i out, (i, out) ∈ validOutQuotes 0 results ∧
        (∀ c ∈ validOutQuotes 0 results, c.2 ≤ out ∧ (c.2 = out → i ≤ c.1)) ∧
        bestQuoteOfResults TradeTypeV3.EXACT_INPUT amt cin cout routes results =
          { bestRoute := routes.get? i, amountIn := some amt,
            amountOut := some { currency := cout, quotient := out } }) ∧
    (validInQuotes 0 results ≠ [] →
      ∃ i inp, (i, inp) ∈ validInQuotes 0 results ∧
        (∀ c ∈ validInQuotes 0 results, inp ≤ c.2 ∧ (c.2 = inp → i ≤ c.1)) ∧
        bestQuoteOfResults TradeTypeV3.EXACT_OUTPUT amt cin cout routes results =
          { bestRoute := routes.get? i,
            amountIn := some { currency := cin, quotient := inp },
            amountOut := some amt }) ∧
    (validOutQuotes 0 results = [] →
      bestQuoteOfResults TradeTypeV3.EXACT_INPUT amt cin cout routes results =
        { bestRoute := none, amountIn := none, amountOut := none }) ∧
    (validInQuotes 0 results = [] →
      bestQuoteOfResults TradeTypeV3.EXACT_OUTPUT amt cin cout routes results =
        { bestRoute := none, amountIn := none, amountOut := none }) ∧
    ((∀ q ∈ quotesResults, q.valid = true ∧ q.loading = false) →
      routesLoading = false → amt.currency ≠ otherCurrency →
      validOutQuotes 0 (quotesResults.map (fun q => q.result)) = [] →
      useClientSideV3Trade TradeTypeV3.EXACT_INPUT (some amt) (some otherCurrency) routes
        routesLoading quotesResults createTradeError =
        TradeUpdate.set TradeState.NO_ROUTE_FOUND none) ∧
    ((∀ q ∈ quotesResults, q.valid = true ∧ q.loading = false) →
      routesLoading = false → amt.currency ≠ otherCurrency →
      validInQuotes 0 (quotesResults.map (fun q => q.result)) = [] →
      useClientSideV3Trade TradeTypeV3.EXACT_OUTPUT (some amt) (some otherCurrency) routes
        routesLoading quotesResults createTradeError =
        TradeUpdate.set TradeState.NO_ROUTE_FOUND none) := by
  have hinempty : ∀ (cin2 cout2 : TokenV3) (rs : List (Option QuoteAmounts)),
      validOutQuotes 0 rs = [] →
      bestQuoteOfResults TradeTypeV3.EXACT_INPUT amt cin2 cout2 routes rs =
        { bestRoute := none, amountIn := none, amountOut := none } := by
    intro cin2 cout2 rs hempty
    unfold bestQuoteOfResults
    rw [bestQuoteGo_exactInput, hempty]
    rfl
  have houtempty : ∀ (cin2 cout2 : TokenV3) (rs : List (Option QuoteAmounts)),
      validInQuotes 0 rs = [] →
      bestQuoteOfResults TradeTypeV3.EXACT_OUTPUT amt cin2 cout2 routes rs =
        { bestRoute := none, amountIn := none, amountOut := none } := by
    intro cin2 cout2 rs hempty
    unfold bestQuoteOfResults
    rw [bestQuoteGo_exactOutput, hempty]
    rfl
  have hcondq : (∀ q ∈ quotesResults, q.valid = true ∧ q.loading = false) →
      amt.currency ≠ otherCurrency →
      (quotesResults.any (fun q => q.valid = false) ||
        (amt.currency == otherCurrency)) = false ∧
      (quotesResults.any (fun q => q.loading)) = false := by
    intro hq hne
    refine ⟨?_, ?_⟩
    · rw [Bool.or_eq_false_iff]
      constructor
      · rw [List.any_eq_false]
        intro q hqmem
        simp [(hq q hqmem).1]
      · exact beq_eq_false_iff_ne.mpr hne
    · rw [List.any_eq_false]
      intro q hqmem
      simp [(hq q hqmem).2]
  refine ⟨?_, ?_, hinempty cin cout results, houtempty cin cout results, ?_, ?_⟩
  · intro hne
    cases hcands : validOutQuotes 0 results with
    | nil => exact absurd hcands hne
    | cons c rest =>
      obtain ⟨j, o⟩ := c
      have hpw := validOutQuotes_pairwise results 0
      rw [hcands] at hpw
      obtain ⟨hmem, hall⟩ := selMaxFirst_spec rest (j, o) hpw
      refine ⟨(selMaxFirst (j, o) rest).1, (selMaxFirst (j, o) rest).2, ?_, ?_, ?_⟩
      · simpa using hmem
      · intro c hc
        exact hall c hc
      · unfold bestQuoteOfResults
        rw [bestQuoteGo_exactInput, hcands]
        simp only [runBestOut]
        exact runBestOut_installed amt cout routes rest j o
  · intro hne
    cases hcands : validInQuotes 0 results with
    | nil => exact absurd hcands hne
    | cons c rest =>
      obtain ⟨j, o⟩ := c
      have hpw := validInQuotes_pairwise results 0
      rw [hcands] at hpw
      obtain ⟨hmem, hall⟩ := selMinFirst_spec rest (j, o) hpw
      refine ⟨(selMinFirst (j, o) rest).1, (selMinFirst (j, o) rest).2, ?_, ?_, ?_⟩
      · simpa using hmem
      · intro c hc
        exact hall c hc
      · unfold bestQuoteOfResults
        rw [bestQuoteGo_exactOutput, hcands]
        simp only [runBestIn]
        exact runBestIn_installed amt cin routes rest j o
  · intro hq hrl hne hempty
    obtain ⟨hc1, hc2⟩ := hcondq hq hne
    have hbest := hinempty amt.currency otherCurrency
      (quotesResults.map (fun q => q.result)) hempty
    simp only [useClientSideV3Trade, Option.map_some']
    rw [hc1, hrl, hc2]
    simp [hbest]
  · intro hq hrl hne hempty
    obtain ⟨hc1, hc2⟩ := hcondq hq hne
    have hbest := houtempty otherCurrency amt.currency
      (quotesResults.map (fun q => q.result)) hempty
    simp only [useClientSideV3Trade, Option.map_some']
    rw [hc1, hrl, hc2]
    simp [hbest]

/-- C9 witness: two valid quoted candidates with outputs 900 and 950,
discharging the non-emptiness hypothesis concretely. -/
theorem useClientSideV3Trade_bestQuote_witness :
    validOutQuotes 0 (sampleQuotes.map (fun q => q.result)) ≠ [] ∧
    (∃ i out, (i, out) ∈ validOutQuotes 0 (sampleQuotes.map (fun q => q.result)) ∧
      (∀ c ∈ validOutQuotes 0 (sampleQuotes.map (fun q => q.result)),
        c.2 ≤ out ∧ (c.2 = out → i ≤ c.1)) ∧
      bestQuoteOfResults TradeTypeV3.EXACT_INPUT sampleAmountV3 sampleTokenV3A sampleTokenV3B
          [sampleRouteV3X, sampleRouteV3Y] (sampleQuotes.map (fun q => q.result)) =
        { bestRoute := [sampleRouteV3X, sampleRouteV3Y].get? i,
          amountIn := some sampleAmountV3,
          amountOut := some { currency := sampleTokenV3B, quotient := out } }) :=
  ⟨by decide,
    (useClientSideV3Trade_bestQuote sampleAmountV3 sampleTokenV3A sampleTokenV3B
      sampleTokenV3B [sampleRouteV3X, sampleRouteV3Y]
      (sampleQuotes.map (fun q => q.result)) sampleQuotes false false).1 (by decide)⟩

/-- C10: if the specified amount is missing, the opposite-side currency is
missing, or the specified amount's currency equals the opposite-side currency
(a same-token swap), the trade derivation returns the `INVALID` state with no
trade. -/
theorem useClientSideV3Trade_invalidOnMissingOrSameToken (tradeType : TradeTypeV3)
    (amountSpecified : Option CurrencyAmountV3) (otherCurrency : Option TokenV3)
    (routes : List RouteV3) (routesLoading : Bool) (quotesResults : List QuoteCallState)
    (createTradeError : Bool)
    (h : amountSpecified = none ∨ otherCurrency = none ∨
      ∃ amtv, amountSpecified = some amtv ∧ otherCurrency = some amtv.currency) :
    useClientSideV3Trade tradeType amountSpecified otherCurrency routes routesLoading
      quotesResults createTradeError = TradeUpdate.set TradeState.INVALID none := by
  rcases h with h | h | ⟨amtv, ham, hoth⟩
  · subst h
    cases tradeType <;> rfl
  · subst h
    cases tradeType <;> cases amountSpecified <;> rfl
  · subst ham
    subst hoth
    cases tradeType <;> simp [useClientSideV3Trade]

/-- C10 witness: a same-token request (the specified amount's currency equals
the opposite-side currency) concretely maps to `INVALID`. -/
theorem useClientSideV3Trade_invalidOnMissingOrSameToken_witness :
    ((some sampleAmountV3 : Option CurrencyAmountV3) = none ∨
      (some sampleTokenV3A : Option TokenV3) = none ∨
      ∃ amtv, (some sampleAmountV3 : Option CurrencyAmountV3) = some amtv ∧
        (some sampleTokenV3A : Option TokenV3) = some amtv.currency) ∧
    useClientSideV3Trade TradeTypeV3.EXACT_INPUT (some sampleAmountV3) (some sampleTokenV3A)
      [] false [] false = TradeUpdate.set TradeState.INVALID none :=
  ⟨Or.inr (Or.inr ⟨sampleAmountV3, rfl, rfl⟩),
    useClientSideV3Trade_invalidOnMissingOrSameToken TradeTypeV3.EXACT_INPUT
      (some sampleAmountV3) (some sampleTokenV3A) [] false [] false
      (Or.inr (Or.inr ⟨sampleAmountV3, rfl, rfl⟩))⟩
